import Mathlib

/-!
Verification of the Dubai voice real-estate consultant backend.

Shallow embedding of the core dialogue pipeline:
* `searchApartments` (backend/src/services/apartmentService.ts) — catalog
  filtering, exclusion of already-shown listings, midpoint-distance sort;
* the local intent resolver and the language-model result application of
  `processDialogue` (backend/src/services/dialogueService.ts);
* the per-session context updates of the HTTP endpoints (server file);
* the phrase segmentation loop of the streaming TTS path.

Modelling conventions:
* JavaScript numbers are modelled as `Int` (every numeric value the code
  manipulates here — prices, areas, floors, bounds — is an integer, for
  which IEEE doubles are exact).  The sort comparator divides by two; the
  model multiplies through by two instead, which induces the identical
  ordering (doubling is exact and monotone).
* JavaScript strings are modelled as `String` / `List Char`; the handful of
  regular expressions the code uses are translated pattern by pattern into
  executable boolean matchers with JavaScript semantics (`\b` word
  boundaries are ASCII-word based, `\s` is the JS whitespace class, and
  string truthiness treats the empty string like `undefined`).
* `Array.prototype.sort` is stable (ES2019); a stable sort of a list under
  a total preorder comparator is unique, so it is modelled by a stable
  insertion sort keyed by the comparator's key.  A comparator that always
  returns 0 leaves the list unchanged.
-/

/-! ## JavaScript string primitives -/

/-- The JS `\s` / `trim` whitespace class (the code points that occur in
practice; the full Unicode class adds more exotic spaces). -/
def jsWsChar (c : Char) : Bool :=
  c = ' ' || c = '\t' || c = '\n' || c = '\r' ||
  c = Char.ofNat 0x0b || c = Char.ofNat 0x0c ||
  c = Char.ofNat 0xa0 || c = Char.ofNat 0xfeff ||
  c = Char.ofNat 0x2028 || c = Char.ofNat 0x2029

/-- `String.prototype.toLowerCase` restricted to the scripts the
application uses: ASCII and Russian Cyrillic. -/
def jsLowerChar (c : Char) : Char :=
  if 0x41 ≤ c.toNat ∧ c.toNat ≤ 0x5a then Char.ofNat (c.toNat + 0x20)
  else if 0x410 ≤ c.toNat ∧ c.toNat ≤ 0x42f then Char.ofNat (c.toNat + 0x20)
  else if c.toNat = 0x401 then Char.ofNat 0x451
  else c

def jsToLower (s : List Char) : List Char := s.map jsLowerChar

def dropWhileWs (s : List Char) : List Char := s.dropWhile jsWsChar

/-- `String.prototype.trim`. -/
def jsTrim (s : List Char) : List Char :=
  (dropWhileWs ((dropWhileWs s.reverse).reverse))

/-- Does `pat` occur as a contiguous substring of `s`
(`String.prototype.includes`)? -/
def containsSub (pat : List Char) : List Char → Bool
  | [] => pat.isPrefixOf []
  | c :: t => pat.isPrefixOf (c :: t) || containsSub pat t

/-- The remainder of `s` after the first occurrence of `pat`, if any. -/
def afterSub (pat : List Char) : List Char → Option (List Char)
  | [] => if pat.isPrefixOf [] then some [] else none
  | c :: t =>
    if pat.isPrefixOf (c :: t) then some ((c :: t).drop pat.length)
    else afterSub pat t

/-- The JS regex test `/a[\s\S]*b/` (here written for `a.*b` patterns, all
of which are applied to single-line inputs): an occurrence of `a` followed,
possibly much later, by an occurrence of `b`. -/
def containsSeq (a b s : List Char) : Bool :=
  match afterSub a s with
  | some rest => containsSub b rest
  | none => false

def startsWithAny (alts : List (List Char)) (s : List Char) : Bool :=
  alts.any (fun alt => alt.isPrefixOf s)

def containsAny (alts : List (List Char)) (s : List Char) : Bool :=
  alts.any (fun alt => containsSub alt s)

/-- Is position `i` of `s` at whitespace-or-end (the regex tail `(\s|$)`)? -/
def wsOrEndAt (s : List Char) (i : Nat) : Bool :=
  match s.get? i with
  | some c => jsWsChar c
  | none => true

/-- The JS regex test `/^(alt1|alt2|…)(\s|$)/`. -/
def anyPrefixWsEnd (alts : List (List Char)) (s : List Char) : Bool :=
  alts.any (fun alt => alt.isPrefixOf s && wsOrEndAt s alt.length)

/-! ## Listing store and search (apartmentService.ts) -/

structure Apartment where
  id : String
  district : String
  area : Int
  floor : Int
  price : Int
  description : String := ""
  images : List String := []
deriving Repr, DecidableEq

structure SearchParams where
  district : Option String := none
  price_min : Option Int := none
  price_max : Option Int := none
  area_min : Option Int := none
  area_max : Option Int := none
  floor_min : Option Int := none
  floor_max : Option Int := none
deriving Repr, DecidableEq

/-- JS truthiness of an optional numeric field: absent, `undefined` and `0`
are falsy. -/
def numTruthy : Option Int → Bool
  | none => false
  | some v => v != 0

/-- JS truthiness of an optional string field: absent and `""` are falsy. -/
def strTruthy : Option String → Bool
  | none => false
  | some s => s != ""

/-- The bidirectional case-insensitive substring test of the district
filter: `aptDistrict.includes(searchDistrict) ||
searchDistrict.includes(aptDistrict)` on lower-cased strings. -/
def districtMatches (query catalogDistrict : String) : Bool :=
  let sd := jsToLower query.data
  let ad := jsToLower catalogDistrict.data
  containsSub sd ad || containsSub ad sd

/-- The filter predicate of `searchApartments` (the sequence of early
`return false` guards, written as one conjunction). -/
def aptPasses (params : SearchParams) (excludeIds : List String)
    (apt : Apartment) : Bool :=
  !(excludeIds.contains apt.id) &&
  (!(strTruthy params.district) ||
    districtMatches (params.district.getD "") apt.district) &&
  (!(numTruthy params.price_min) || !(apt.price < params.price_min.getD 0)) &&
  (!(numTruthy params.price_max) || !(apt.price > params.price_max.getD 0)) &&
  (!(numTruthy params.area_min) || !(apt.area < params.area_min.getD 0)) &&
  (!(numTruthy params.area_max) || !(apt.area > params.area_max.getD 0)) &&
  (!(numTruthy params.floor_min) || !(apt.floor < params.floor_min.getD 0)) &&
  (!(numTruthy params.floor_max) || !(apt.floor > params.floor_max.getD 0))

/-- Insert `a` into `l` before the first element whose key is not smaller:
the stable insertion step. -/
def insertK {α : Type} (key : α → Int) (a : α) : List α → List α
  | [] => [a]
  | b :: l => if key a ≤ key b then a :: b :: l else b :: insertK key a l

/-- Stable insertion sort by an integer key.  This is the unique output of
any stable comparison sort (such as ES2019 `Array.prototype.sort`) under
the total preorder `key · ≤ key ·`. -/
def sortByKey {α : Type} (key : α → Int) : List α → List α
  | [] => []
  | a :: l => insertK key a (sortByKey key l)

/-- Twice the comparator's sort key: the comparator orders by
`|price − (price_min + price_max) / 2|`; multiplying through by two gives
the same ordering over exact reals and stays in `Int`. -/
def searchSortKey (params : SearchParams) (apt : Apartment) : Int :=
  |2 * apt.price - (params.price_min.getD 0 + params.price_max.getD 0)|

/-- `searchApartments` over an explicit catalog list: filter by the set
(truthy) bounds, excluding already-shown ids, then sort by distance from
the price-range midpoint when both price bounds are truthy (a comparator
that otherwise always returns 0, i.e. the identity under a stable sort). -/
def searchApartmentsOn (catalog : List Apartment) (params : SearchParams)
    (excludeIds : List String) : List Apartment :=
  let filtered := catalog.filter (aptPasses params excludeIds)
  if numTruthy params.price_min && numTruthy params.price_max then
    sortByKey (searchSortKey params) filtered
  else
    filtered

/-- Modelled from the spec: the static read-only listing store
(`data/apartments.json` is not part of the provided sources; §2 "Listing
Store (leaf): read-only catalog of apartment records" and the district list
of the dialogue prompt).  A small concrete catalog faithful to the spec's
shape: unique stable ids, districts from the fixed district list, integer
areas, floors and AED prices. -/
def apartmentList : List Apartment :=
  [ { id := "A1", district := "Dubai Marina", area := 65, floor := 5,
      price := 1800000 },
    { id := "A2", district := "Downtown Dubai", area := 85, floor := 12,
      price := 2500000 },
    { id := "A3", district := "Palm Jumeirah", area := 120, floor := 3,
      price := 4200000 },
    { id := "A4", district := "JBR", area := 70, floor := 8,
      price := 1900000 },
    { id := "A5", district := "Business Bay", area := 55, floor := 15,
      price := 1500000 },
    { id := "A6", district := "Dubai Marina", area := 90, floor := 10,
      price := 2200000 },
    { id := "A7", district := "JVC", area := 72, floor := 2,
      price := 2100000 } ]

def searchApartments (params : SearchParams)
    (excludeIds : List String := []) : List Apartment :=
  searchApartmentsOn apartmentList params excludeIds

def getApartmentById (id : String) : Option Apartment :=
  apartmentList.find? (fun apt => apt.id == id)

/-! ## Sorting lemmas -/

theorem insertK_perm {α : Type} (key : α → Int) (a : α) (l : List α) :
    List.Perm (insertK key a l) (a :: l) := by
  induction l with
  | nil => simp [insertK]
  | cons b t ih =>
    simp only [insertK]
    split
    · exact List.Perm.refl _
    · exact List.Perm.trans (List.Perm.cons b ih) (List.Perm.swap a b t)

theorem sortByKey_perm {α : Type} (key : α → Int) (l : List α) :
    List.Perm (sortByKey key l) l := by
  induction l with
  | nil => simp [sortByKey]
  | cons a t ih =>
    exact List.Perm.trans (insertK_perm key a (sortByKey key t))
      (List.Perm.cons a ih)

theorem mem_sortByKey {α : Type} {key : α → Int} {l : List α} {x : α} :
    x ∈ sortByKey key l ↔ x ∈ l :=
  (sortByKey_perm key l).mem_iff

theorem pairwise_insertK {α : Type} {key : α → Int} {a : α} {l : List α}
    (h : List.Pairwise (fun x y => key x ≤ key y) l) :
    List.Pairwise (fun x y => key x ≤ key y) (insertK key a l) := by
  induction l with
  | nil => simp [insertK]
  | cons b t ih =>
    have hb := (List.pairwise_cons.mp h).1
    have ht := (List.pairwise_cons.mp h).2
    simp only [insertK]
    split
    · rename_i hab
      refine List.Pairwise.cons ?_ (List.Pairwise.cons hb ht)
      intro x hx
      rcases List.mem_cons.mp hx with rfl | hx
      · exact hab
      · exact le_trans hab (hb x hx)
    · rename_i hab
      refine List.Pairwise.cons ?_ (ih ht)
      intro x hx
      rcases List.mem_cons.mp ((insertK_perm key a t).mem_iff.mp hx) with
        rfl | hx
      · exact le_of_not_le hab
      · exact hb x hx

theorem pairwise_sortByKey {α : Type} (key : α → Int) (l : List α) :
    List.Pairwise (fun x y => key x ≤ key y) (sortByKey key l) := by
  induction l with
  | nil => simp [sortByKey]
  | cons a t ih => exact pairwise_insertK ih

theorem filter_insertK {α : Type} (key : α → Int) (a : α) (l : List α)
    (k : Int) :
    (insertK key a l).filter (fun x => key x == k) =
      if key a == k then a :: l.filter (fun x => key x == k)
      else l.filter (fun x => key x == k) := by
  induction l with
  | nil =>
    by_cases hak : key a = k
    · have h1 : (key a == k) = true := by simpa using hak
      simp [insertK, List.filter, h1, hak]
    · have h1 : (key a == k) = false := by simpa using hak
      simp [insertK, List.filter, h1, hak]
  | cons b t ih =>
    simp only [insertK]
    split
    · simp [List.filter_cons]
    · rename_i hab
      by_cases hak : key a = k
      · have hbk : ¬ (key b = k) := by
          intro hbk
          exact hab (le_of_lt (by omega))
        simp [List.filter_cons, ih, hak, hbk]
      · simp [List.filter_cons, ih, hak]

theorem filter_sortByKey {α : Type} (key : α → Int) (l : List α) (k : Int) :
    (sortByKey key l).filter (fun x => key x == k) =
      l.filter (fun x => key x == k) := by
  induction l with
  | nil => simp [sortByKey]
  | cons a t ih =>
    simp only [sortByKey, filter_insertK, List.filter_cons]
    split <;> simp_all

theorem mem_searchApartmentsOn {catalog : List Apartment}
    {params : SearchParams} {excl : List String} {apt : Apartment}
    (h : apt ∈ searchApartmentsOn catalog params excl) :
    apt ∈ catalog.filter (aptPasses params excl) := by
  unfold searchApartmentsOn at h
  split at h
  · exact mem_sortByKey.mp h
  · exact h

theorem aptPasses_of_mem {catalog : List Apartment} {params : SearchParams}
    {excl : List String} {apt : Apartment}
    (h : apt ∈ searchApartmentsOn catalog params excl) :
    aptPasses params excl apt = true :=
  List.of_mem_filter (mem_searchApartmentsOn h)

/-! ## Search-engine claims (C1, C2, C3, C10) -/

/-- The exact comparator distance of a listing from the midpoint of the
price range, over exact rationals. -/
def midpointDist (pmin pmax : Int) (apt : Apartment) : ℚ :=
  |(apt.price : ℚ) - ((pmin : ℚ) + (pmax : ℚ)) / 2|

theorem midpointDist_eq_key {params : SearchParams} {pmin pmax : Int}
    (hmin : params.price_min = some pmin)
    (hmax : params.price_max = some pmax) (apt : Apartment) :
    midpointDist pmin pmax apt = ((searchSortKey params apt : ℤ) : ℚ) / 2 := by
  unfold midpointDist searchSortKey
  rw [hmin, hmax]
  simp only [Option.getD_some]
  rw [Int.cast_abs]
  push_cast
  have h2 : |2 * (apt.price : ℚ) - ((pmin : ℚ) + (pmax : ℚ))| =
      2 * |(apt.price : ℚ) - ((pmin : ℚ) + (pmax : ℚ)) / 2| := by
    rw [show 2 * (apt.price : ℚ) - ((pmin : ℚ) + (pmax : ℚ)) =
        2 * ((apt.price : ℚ) - ((pmin : ℚ) + (pmax : ℚ)) / 2) by ring,
      abs_mul]
    norm_num
  rw [h2]
  ring

/-- C1: no listing returned by `searchApartments` has an id contained in
the exclusion list. -/
theorem searchApartments_excludes (params : SearchParams)
    (excl : List String) (apt : Apartment)
    (h : apt ∈ searchApartments params excl) : apt.id ∉ excl := by
  have hp := @aptPasses_of_mem apartmentList params excl apt h
  intro hmem
  simp only [aptPasses, Bool.and_eq_true, Bool.not_eq_true'] at hp
  have hc : excl.contains apt.id = false := by tauto
  simp at hc
  exact hc hmem

theorem searchApartments_excludes_witness :
    (Apartment.mk "A2" "Downtown Dubai" 85 12 2500000 "" []) ∈
      searchApartments {} ["A1"] ∧
    (Apartment.mk "A2" "Downtown Dubai" 85 12 2500000 "" []).id ∉ ["A1"] :=
  ⟨by decide,
   searchApartments_excludes {} ["A1"]
     (Apartment.mk "A2" "Downtown Dubai" 85 12 2500000 "" []) (by decide)⟩

/-- C2: every returned listing satisfies each effectively-set bound
inclusively (a bound is set when its field holds a truthy value, i.e. a
nonzero number — resp. a nonempty district string — matching the code's
truthiness guards), and the district matches by case-insensitive substring
in at least one direction. -/
theorem searchApartments_respects_bounds (params : SearchParams)
    (excl : List String) (apt : Apartment)
    (h : apt ∈ searchApartments params excl) :
    (∀ v : Int, params.price_min = some v → v ≠ 0 → v ≤ apt.price) ∧
    (∀ v : Int, params.price_max = some v → v ≠ 0 → apt.price ≤ v) ∧
    (∀ v : Int, params.area_min = some v → v ≠ 0 → v ≤ apt.area) ∧
    (∀ v : Int, params.area_max = some v → v ≠ 0 → apt.area ≤ v) ∧
    (∀ v : Int, params.floor_min = some v → v ≠ 0 → v ≤ apt.floor) ∧
    (∀ v : Int, params.floor_max = some v → v ≠ 0 → apt.floor ≤ v) ∧
    (∀ d : String, params.district = some d → d ≠ "" →
      districtMatches d apt.district = true) := by
  have hp := @aptPasses_of_mem apartmentList params excl apt h
  simp only [aptPasses, Bool.and_eq_true, Bool.not_eq_true'] at hp
  obtain ⟨⟨⟨⟨⟨⟨⟨_, hdis⟩, hpm⟩, hpM⟩, ham⟩, haM⟩, hfm⟩, hfM⟩ := hp
  refine ⟨?_, ?_, ?_, ?_, ?_, ?_, ?_⟩
  · intro v hv hv0
    rw [hv] at hpm
    simp [numTruthy, hv0] at hpm
    omega
  · intro v hv hv0
    rw [hv] at hpM
    simp [numTruthy, hv0] at hpM
    omega
  · intro v hv hv0
    rw [hv] at ham
    simp [numTruthy, hv0] at ham
    omega
  · intro v hv hv0
    rw [hv] at haM
    simp [numTruthy, hv0] at haM
    omega
  · intro v hv hv0
    rw [hv] at hfm
    simp [numTruthy, hv0] at hfm
    omega
  · intro v hv hv0
    rw [hv] at hfM
    simp [numTruthy, hv0] at hfM
    omega
  · intro d hd hd0
    rw [hd] at hdis
    simp [strTruthy, hd0] at hdis
    simpa using hdis

theorem searchApartments_respects_bounds_witness :
    (Apartment.mk "A4" "JBR" 70 8 1900000 "" []) ∈
      searchApartments
        (SearchParams.mk (some "jbr") (some 1500000) (some 2000000)
          none none none none) [] ∧
    (1500000 : Int) ≤ 1900000 ∧ (1900000 : Int) ≤ 2000000 ∧
    districtMatches "jbr" "JBR" = true := by
  have h : (Apartment.mk "A4" "JBR" 70 8 1900000 "" []) ∈
      searchApartments
        (SearchParams.mk (some "jbr") (some 1500000) (some 2000000)
          none none none none) [] := by decide
  have hb := searchApartments_respects_bounds _ _ _ h
  exact ⟨h, hb.1 1500000 rfl (by decide),
    hb.2.1 2000000 rfl (by decide),
    hb.2.2.2.2.2.2 "jbr" rfl (by decide)⟩

/-- C3: when both price bounds are set (truthy), results are ordered
non-decreasingly by the absolute distance of the listing price from the
midpoint of the price range, and ties keep catalog order (stability, stated
by the standard filter characterisation: the sub-list of listings at any
fixed distance is exactly the corresponding sub-list of the unsorted
filtered catalog); when not both price bounds are truthy the result
preserves catalog order (it is an in-order sublist of the catalog). -/
theorem searchApartments_sort_order (params : SearchParams)
    (excl : List String) :
    (∀ pmin pmax : Int, params.price_min = some pmin →
      params.price_max = some pmax → pmin ≠ 0 → pmax ≠ 0 →
      List.Pairwise
        (fun a b => midpointDist pmin pmax a ≤ midpointDist pmin pmax b)
        (searchApartments params excl) ∧
      ∀ d : ℚ, (searchApartments params excl).filter
          (fun a => decide (midpointDist pmin pmax a = d)) =
        (apartmentList.filter (aptPasses params excl)).filter
          (fun a => decide (midpointDist pmin pmax a = d))) ∧
    ((numTruthy params.price_min = false ∨
        numTruthy params.price_max = false) →
      List.Sublist (searchApartments params excl) apartmentList) := by
  constructor
  · intro pmin pmax hmin hmax h0 h1
    have hgate : (numTruthy params.price_min &&
        numTruthy params.price_max) = true := by
      simp [numTruthy, hmin, hmax, h0, h1]
    have hres : searchApartments params excl =
        sortByKey (searchSortKey params)
          (apartmentList.filter (aptPasses params excl)) := by
      unfold searchApartments searchApartmentsOn
      rw [hgate]
      rfl
    constructor
    · rw [hres]
      refine (pairwise_sortByKey (searchSortKey params) _).imp ?_
      intro a b hab
      rw [midpointDist_eq_key hmin hmax a, midpointDist_eq_key hmin hmax b]
      have : ((searchSortKey params a : ℤ) : ℚ) ≤
          ((searchSortKey params b : ℤ) : ℚ) := Int.cast_le.mpr hab
      linarith
    · intro d
      rw [hres]
      by_cases hex : ∃ k : Int, (k : ℚ) = 2 * d
      · obtain ⟨k, hk⟩ := hex
        have hpred : ∀ a : Apartment,
            (decide (midpointDist pmin pmax a = d)) =
              (searchSortKey params a == k) := by
          intro a
          have h12 : midpointDist pmin pmax a = d ↔
              searchSortKey params a = k := by
            rw [midpointDist_eq_key hmin hmax a]
            constructor
            · intro hh
              have hcast : ((searchSortKey params a : ℤ) : ℚ) = (k : ℚ) := by
                rw [hk]
                linarith
              exact_mod_cast hcast
            · intro hh
              rw [hh, hk]
              ring
          by_cases hh2 : searchSortKey params a = k
          · simp [hh2, h12.mpr hh2]
          · have hnd : ¬ (midpointDist pmin pmax a = d) :=
              fun c => hh2 (h12.mp c)
            simp [hh2, hnd]
        rw [List.filter_congr (fun a _ => hpred a),
          List.filter_congr (fun a _ => hpred a)]
        exact filter_sortByKey _ _ k
      · have hpred : ∀ a : Apartment,
            (decide (midpointDist pmin pmax a = d)) = false := by
          intro a
          apply decide_eq_false
          intro hc
          apply hex
          refine ⟨searchSortKey params a, ?_⟩
          rw [midpointDist_eq_key hmin hmax a] at hc
          linarith
        rw [List.filter_congr (fun a _ => hpred a),
          List.filter_congr (fun a _ => hpred a)]
        simp
  · intro hor
    have hgate : (numTruthy params.price_min &&
        numTruthy params.price_max) = false := by
      rcases hor with h | h <;> simp [h]
    unfold searchApartments searchApartmentsOn
    rw [hgate]
    simp only [Bool.false_eq_true, if_false]
    exact List.filter_sublist _

theorem searchApartments_sort_order_witness :
    List.Pairwise
      (fun a b => midpointDist 1500000 2500000 a ≤
        midpointDist 1500000 2500000 b)
      (searchApartments
        (SearchParams.mk none (some 1500000) (some 2500000)
          none none none none) []) ∧
    List.Sublist
      (searchApartments
        (SearchParams.mk none none (some 2000000) none none none none) [])
      apartmentList :=
  ⟨((searchApartments_sort_order
      (SearchParams.mk none (some 1500000) (some 2500000)
        none none none none) []).1
    1500000 2500000 rfl rfl (by decide) (by decide)).1,
   (searchApartments_sort_order
      (SearchParams.mk none none (some 2000000) none none none none) []).2
    (Or.inl (by decide))⟩

/-- C10: setting any numeric bound field to `0` behaves exactly as leaving
it unset — the guards test JS truthiness, so a zero bound is skipped, and
the sort gate likewise treats it as unset. -/
theorem searchApartments_zero_bound_unset (params : SearchParams)
    (excl : List String) :
    searchApartments { params with price_min := some 0 } excl =
      searchApartments { params with price_min := none } excl ∧
    searchApartments { params with price_max := some 0 } excl =
      searchApartments { params with price_max := none } excl ∧
    searchApartments { params with area_min := some 0 } excl =
      searchApartments { params with area_min := none } excl ∧
    searchApartments { params with area_max := some 0 } excl =
      searchApartments { params with area_max := none } excl ∧
    searchApartments { params with floor_min := some 0 } excl =
      searchApartments { params with floor_min := none } excl ∧
    searchApartments { params with floor_max := some 0 } excl =
      searchApartments { params with floor_max := none } excl := by
  refine ⟨?_, ?_, ?_, ?_, ?_, ?_⟩ <;> rfl

theorem searchApartments_zero_bound_returns_over_bound :
    (Apartment.mk "A1" "Dubai Marina" 65 5 1800000 "" []) ∈
      searchApartments
        (SearchParams.mk none none (some 0) none none none none) [] ∧
    (1800000 : Int) > 0 := by
  constructor
  · decide
  · decide

/-! ## Dialogue data model (types/index.ts) -/

structure ChatMessage where
  role : String
  content : String
deriving Repr, DecidableEq

structure DialogueContext where
  sessionId : String
  params : SearchParams
  shownApartments : List String
  selectedApartment : Option String := none
  messageHistory : List ChatMessage := []
  startTime : Int := 0
deriving Repr, DecidableEq

/-- The result record of `processDialogue`. -/
structure DialogueResult where
  response : String
  paramsUpdate : SearchParams
  action : String
  apartment : Option Apartment := none
deriving Repr, DecidableEq

/-- `Object.keys(context.params).length > 0`: the params object carries a
key exactly for each field that has been assigned (assignments only store
non-null values, but `0` and `""` do create keys). -/
def hasAnyParam (p : SearchParams) : Bool :=
  p.district.isSome || p.price_min.isSome || p.price_max.isSome ||
  p.area_min.isSome || p.area_max.isSome || p.floor_min.isSome ||
  p.floor_max.isSome

/-- `context.shownApartments[context.shownApartments.length - 1]` under a
JS truthiness test: the last element, unless the array is empty or the last
element is the empty string. -/
def jsLastShown (shown : List String) : Option String :=
  match shown.getLast? with
  | some s => if s = "" then none else some s
  | none => none

/-! ## Local intent patterns (dialogueService.ts, lines 55–166)

Each regular expression of the resolver cascade is translated
alternative-by-alternative.  All are applied to the lower-cased, trimmed
transcript. -/

/-- `/(что.*умеешь|что.*можешь|что.*делаешь|как.*работаешь|как.*помочь|расскажи.*себе|кто.*ты)/i` -/
def capabilityPat (s : List Char) : Bool :=
  containsSeq "что".data "умеешь".data s ||
  containsSeq "что".data "можешь".data s ||
  containsSeq "что".data "делаешь".data s ||
  containsSeq "как".data "работаешь".data s ||
  containsSeq "как".data "помочь".data s ||
  containsSeq "расскажи".data "себе".data s ||
  containsSeq "кто".data "ты".data s

/-- `/(давай|поменяй|измен|уменьш|увелич|другой|изменим|поменяем).*(бюджет|цен|цену|цен|параметр)/i`
or `/^(другой бюджет|изменить цену|уменьшить|увеличить).*/i` -/
def budgetChangePat (s : List Char) : Bool :=
  (["давай", "поменяй", "измен", "уменьш", "увелич", "другой",
    "изменим", "поменяем"].any (fun x =>
    ["бюджет", "цен", "цену", "цен", "параметр"].any (fun y =>
      containsSeq x.data y.data s))) ||
  startsWithAny
    ["другой бюджет".data, "изменить цену".data,
     "уменьшить".data, "увеличить".data] s

/-- The JS `\w` word-character class: `[A-Za-z0-9_]` (note: Cyrillic
letters are NOT word characters, which shapes the `\b` behaviour of the
district regex). -/
def jsWordChar (c : Char) : Bool :=
  (0x41 ≤ c.toNat ∧ c.toNat ≤ 0x5a) || (0x61 ≤ c.toNat ∧ c.toNat ≤ 0x7a) ||
  (0x30 ≤ c.toNat ∧ c.toNat ≤ 0x39) || c = '_'

def wordAt (s : List Char) (i : Nat) : Bool :=
  match s.get? i with
  | some c => jsWordChar c
  | none => false

/-- JS `\b`: a position where exactly one side is a word character. -/
def boundaryAt (s : List Char) (i : Nat) : Bool :=
  (if i = 0 then false else wordAt s (i - 1)) != wordAt s i

/-- The alternatives of the district regex, in source order. -/
def districtAlts : List (List Char) :=
  ["джибиар".data, "джи би ар".data, "джей би ар".data, "gbr".data,
   "jbr".data, "дубай марина".data, "дубаи марина".data, "марина".data,
   "marina".data, "палм джумейра".data, "пальм джумейра".data,
   "пальмс джумейра".data, "палмс джумейра".data, "palm jumeirah".data,
   "palms".data, "даунтаун".data, "downtown".data, "бизнес бей".data,
   "бизнес бэй".data, "business bay".data, "дубай хиллс".data,
   "дубаи хиллс".data, "dubai hills".data, "hills".data,
   "джей ви си".data, "jvc".data, "крик харбур".data, "крик харбор".data,
   "creek harbour".data, "creek".data, "дифс".data, "difc".data]

def altMatchAt (s alt : List Char) (i : Nat) : Bool :=
  alt.isPrefixOf (s.drop i) && boundaryAt s i && boundaryAt s (i + alt.length)

/-- `lowerMsg.match(/\b(…)\b/i)`: the first (leftmost, then by alternative
order) `\b`-delimited occurrence of a district alternative. -/
def firstDistrictRaw (s : List Char) : Option (List Char) :=
  (List.range (s.length + 1)).findSome? (fun i =>
    districtAlts.findSome? (fun alt =>
      if altMatchAt s alt i then some alt else none))

/-- The `if/else` classification chain applied to the raw matched text
(lines 77–85); note the absent `дифс` case: that alternative matches the
regex but classifies to `null`. -/
def classifyDistrict (raw : List Char) : Option String :=
  if containsAny ["джибиар".data, "джи би ар".data, "джей би ар".data,
      "gbr".data, "jbr".data] raw then some "JBR"
  else if containsAny ["дубай марина".data, "дубаи марина".data,
      "марина".data, "marina".data] raw then some "Dubai Marina"
  else if containsAny ["палм".data, "пальм".data, "palm".data] raw then
    some "Palm Jumeirah"
  else if containsAny ["даунтаун".data, "downtown".data] raw then
    some "Downtown Dubai"
  else if containsAny ["бизнес бей".data, "бизнес бэй".data,
      "business bay".data] raw then some "Business Bay"
  else if containsAny ["дубай хиллс".data, "дубаи хиллс".data,
      "dubai hills".data, "hills".data] raw then some "Dubai Hills"
  else if containsAny ["джей ви си".data, "jvc".data] raw then some "JVC"
  else if containsAny ["крик".data, "creek".data] raw then
    some "Creek Harbour"
  else if containsAny ["difc".data] raw then some "DIFC"
  else none

def detectDistrict (s : List Char) : Option String :=
  match firstDistrictRaw s with
  | some raw => classifyDistrict raw
  | none => none

/-- The number of maximal runs of non-whitespace characters. -/
def nonWsRuns : List Char → Nat
  | [] => 0
  | c :: t =>
    if jsWsChar c then nonWsRuns t
    else match t with
      | [] => 1
      | c2 :: _ => if jsWsChar c2 then 1 + nonWsRuns t else nonWsRuns t

/-- `lowerMsg.split(/\s+/).length`: JS split counts an empty leading
element when the string starts with whitespace and an empty trailing
element when it ends with whitespace; the empty string splits to `[""]`. -/
def splitWsCount (s : List Char) : Nat :=
  match s with
  | [] => 1
  | c :: t =>
    nonWsRuns (c :: t) + (if jsWsChar c then 1 else 0) +
    (if jsWsChar ((c :: t).getLast (by simp)) then 1 else 0)

/-- `/^(нет|всё|начинай|начни|ищи|покажи|давай|поехали|го|поиск|варианты|показать|посмотрим)[,.\s!]?/i`
(the trailing optional class can never fail, so the test is a prefix test). -/
def searchTriggerPat (s : List Char) : Bool :=
  startsWithAny
    ["нет".data, "всё".data, "начинай".data, "начни".data, "ищи".data,
     "покажи".data, "давай".data, "поехали".data, "го".data, "поиск".data,
     "варианты".data, "показать".data, "посмотрим".data] s

/-- The confirm-interest regex pair (line 135). -/
def confirmPat (s : List Char) : Bool :=
  (("да".data.isPrefixOf s && wsOrEndAt s 2) ||
   (let t := if "ну ".data.isPrefixOf s then s.drop 3 else s
    t = "да".data || t = "да,".data || t = "да!".data || t = "да.".data) ||
   startsWithAny
     ["хорошо".data, "отлично".data, "супер".data, "нравит".data,
      "подходит".data] s ||
   (["эта", "это", "её", "нее"].any (fun x =>
     containsSeq x.data "нравит".data s)) ||
   containsAny
     ["подход".data, "интерес".data, "беру".data, "готов".data,
      "расскажи".data, "информац".data, "отправь".data, "пришли".data,
      "подробнее".data, "благодар".data] s ||
   containsSeq "хочу".data "эту".data s ||
   containsSeq "покажи".data "мне".data s ||
   containsSeq "покажи".data "её".data s ||
   containsSeq "покажи".data "эту".data s ||
   containsSeq "покажи".data "это".data s) ||
  anyPrefixWsEnd
    ["покажи её".data, "покажи это".data, "вот эта".data, "эта да".data] s

/-- `/^(покажи другую|показать другую|далее|следующую|next|ещё|еще|другую)(\s|$)|^(нет|не подходит|не нравится)(\s|$)/i` -/
def nextPat (s : List Char) : Bool :=
  anyPrefixWsEnd
    ["покажи другую".data, "показать другую".data, "далее".data,
     "следующую".data, "next".data, "ещё".data, "еще".data,
     "другую".data] s ||
  anyPrefixWsEnd
    ["нет".data, "не подходит".data, "не нравится".data] s

/-- `/^(спасибо|до свидания|пока|выход|exit|bye|не надо|всё|конец|хватит)/i` -/
def exitPat (s : List Char) : Bool :=
  startsWithAny
    ["спасибо".data, "до свидания".data, "пока".data, "выход".data,
     "exit".data, "bye".data, "не надо".data, "всё".data, "конец".data,
     "хватит".data] s

/-! ## The local resolver cascade (processDialogue, lines 52–172) -/

def capabilityMsg : String :=
  "Я помогаю подобрать квартиру в Дубае. Скажите бюджет, район или размер — и я найду варианты. Могу показать детали и отправить презентацию."

def budgetChangeMsg : String :=
  "Понятно, давайте подберём для вас подходящий вариант с новым бюджетом. Какая сумма вас интересует?"

def noOptionsMsg : String :=
  "По этим параметрам нет вариантов. Уточните запрос."

def confirmInterestMsg : String :=
  "Отлично! Я создаю для вас персональную страницу с подробной информацией об этой квартире. Ссылка появится на экране."

def farewellMsg : String := "Спасибо! Удачи в поиске!"

def clarifyNoApartmentMsg : String :=
  "Я пока не нашёл подходящую квартиру. Уточните, пожалуйста, район или другие предпочтения."

def noMoreOptionsMsg : String :=
  "По этим параметрам больше нет вариантов. Что изменим?"

def recoverDefaultMsg : String :=
  "Извините, произошла ошибка. Повторите, пожалуйста."

def apologyMsg : String :=
  "Извините, я не расслышал. Пожалуйста, повторите ваш вопрос."

/-- `Вот вариант: ${formatApartmentForVoice(apartment)} Нравится?`.  The
voice formatter `fmt` (pure string prettification with no effect on any
resolved action, parameter or listing) is kept abstract: every theorem
below holds for every formatter. -/
def hereIsOptionMsg (fmt : Apartment → String) (apt : Apartment) : String :=
  "Вот вариант: " ++ fmt apt ++ " Нравится?"

def hereIsOptionAskMsg (fmt : Apartment → String) (apt : Apartment) :
    String :=
  "Вот вариант: " ++ fmt apt ++ " Нравится или показать другую?"

/-- Rule 1: capability question (line 55). -/
def ruleCapability (m : List Char) : Option DialogueResult :=
  if capabilityPat m then
    some { response := capabilityMsg, paramsUpdate := {}, action := "none" }
  else none

/-- Rule 2: budget/parameter change request (line 64): a canned question,
no parameter update, action `none`. -/
def ruleBudgetChange (m : List Char) : Option DialogueResult :=
  if budgetChangePat m then
    some { response := budgetChangeMsg, paramsUpdate := {}, action := "none" }
  else none

/-- Rule 3: district mention alone (≤ 4 tokens) while params exist
(line 92). -/
def ruleDistrictAlone (fmt : Apartment → String) (ctx : DialogueContext)
    (m : List Char) : Option DialogueResult :=
  if hasAnyParam ctx.params ∧ (detectDistrict m).isSome ∧
      splitWsCount m ≤ 4 then
    match searchApartments { ctx.params with district := detectDistrict m }
        ctx.shownApartments with
    | apt :: _ =>
      some { response := hereIsOptionMsg fmt apt,
             paramsUpdate := { district := detectDistrict m },
             action := "search", apartment := some apt }
    | [] =>
      some { response := noOptionsMsg,
             paramsUpdate := { district := detectDistrict m },
             action := "none" }
  else none

/-- In rule 4 the detected district (if any) overrides the search district
(`detectedDistrict ? { ...context.params, district: detectedDistrict } :
context.params`). -/
def triggerSearchParams (params : SearchParams) (m : List Char) :
    SearchParams :=
  match detectDistrict m with
  | some d => { params with district := some d }
  | none => params

/-- Rule 4's params update: `{district: detectedDistrict}` when a district
was detected, otherwise `{}`. -/
def triggerPatch (m : List Char) : SearchParams :=
  match detectDistrict m with
  | some d => { district := some d }
  | none => {}

/-- Rule 4: generic "go/show/search now" trigger gated on existing params
(line 112). -/
def ruleSearchTrigger (fmt : Apartment → String) (ctx : DialogueContext)
    (m : List Char) : Option DialogueResult :=
  if hasAnyParam ctx.params ∧ searchTriggerPat m then
    match searchApartments (triggerSearchParams ctx.params m)
        ctx.shownApartments with
    | apt :: _ =>
      some { response := hereIsOptionMsg fmt apt,
             paramsUpdate := triggerPatch m,
             action := "search", apartment := some apt }
    | [] =>
      some { response := noOptionsMsg, paramsUpdate := triggerPatch m,
             action := "none" }
  else none

/-- Rule 5: confirmation phrases (line 135); resolves only when a last
shown listing exists (truthy) and is found in the catalog, otherwise falls
through. -/
def ruleConfirm (ctx : DialogueContext) (m : List Char) :
    Option DialogueResult :=
  if confirmPat m then
    match jsLastShown ctx.shownApartments with
    | some id =>
      match getApartmentById id with
      | some apt =>
        some { response := confirmInterestMsg, paramsUpdate := {},
               action := "confirm_interest", apartment := some apt }
      | none => none
    | none => none
  else none

/-- Rule 6: "show another" phrases (line 152); resolves only when the
exclusion-aware search has a result, otherwise falls through. -/
def ruleNext (fmt : Apartment → String) (ctx : DialogueContext)
    (m : List Char) : Option DialogueResult :=
  if nextPat m then
    match searchApartments ctx.params ctx.shownApartments with
    | apt :: _ =>
      some { response := hereIsOptionMsg fmt apt, paramsUpdate := {},
             action := "next", apartment := some apt }
    | [] => none
  else none

/-- Rule 7: farewell (line 166). -/
def ruleExit (m : List Char) : Option DialogueResult :=
  if exitPat m then
    some { response := farewellMsg, paramsUpdate := {}, action := "end" }
  else none

/-- The full local cascade: the first rule that returns wins; `none` means
the turn is delegated to the language-model path. -/
def localResolveCore (fmt : Apartment → String) (ctx : DialogueContext)
    (m : List Char) : Option DialogueResult :=
  match ruleCapability m with
  | some r => some r
  | none =>
  match ruleBudgetChange m with
  | some r => some r
  | none =>
  match ruleDistrictAlone fmt ctx m with
  | some r => some r
  | none =>
  match ruleSearchTrigger fmt ctx m with
  | some r => some r
  | none =>
  match ruleConfirm ctx m with
  | some r => some r
  | none =>
  match ruleNext fmt ctx m with
  | some r => some r
  | none => ruleExit m

/-- `const lowerMsg = userMessage.toLowerCase().trim()` followed by the
cascade. -/
def localResolve (fmt : Apartment → String) (userMessage : String)
    (ctx : DialogueContext) : Option DialogueResult :=
  localResolveCore fmt ctx (jsTrim (jsToLower userMessage.data))

/-! ## JSON parsing (`JSON.parse` as used on the completion text)

A recursive-descent model of `JSON.parse`.  Numeric literals are parsed as
exact decimals `m / 10^k`; the dialogue code only ever consumes
integer-valued numbers (AED prices, square metres, floors), so the
parameter patch keeps a numeric field only when its value is an integer. -/

inductive Json where
  | null : Json
  | boolVal (b : Bool) : Json
  | numVal (m : Int) (k : Nat) : Json
  | strVal (s : String) : Json
  | arrVal (xs : List Json) : Json
  | objVal (fields : List (String × Json)) : Json

def jsonWs (c : Char) : Bool :=
  c = ' ' || c = '\t' || c = '\n' || c = '\r'

def skipJsonWs (s : List Char) : List Char := s.dropWhile jsonWs

def isDigitCh (c : Char) : Bool := '0' ≤ c ∧ c ≤ '9'

def digitsToNat (ds : List Char) : Nat :=
  ds.foldl (fun acc c => acc * 10 + (c.toNat - 48)) 0

def hexVal (c : Char) : Option Nat :=
  if '0' ≤ c ∧ c ≤ '9' then some (c.toNat - 48)
  else if 'a' ≤ c ∧ c ≤ 'f' then some (c.toNat - 87)
  else if 'A' ≤ c ∧ c ≤ 'F' then some (c.toNat - 55)
  else none

def escapeChar (c : Char) : Option Char :=
  if c = '"' then some '"'
  else if c = '\\' then some '\\'
  else if c = '/' then some '/'
  else if c = 'b' then some (Char.ofNat 8)
  else if c = 'f' then some (Char.ofNat 12)
  else if c = 'n' then some '\n'
  else if c = 'r' then some '\r'
  else if c = 't' then some '\t'
  else none

/-- The body of a JSON string literal after the opening quote. -/
def parseStrBody : Nat → List Char → Option (List Char × List Char)
  | 0, _ => none
  | _ + 1, [] => none
  | fuel + 1, c :: t =>
    if c = '"' then some ([], t)
    else if c = '\\' then
      match t with
      | [] => none
      | e :: t2 =>
        if e = 'u' then
          match t2 with
          | h1 :: h2 :: h3 :: h4 :: t3 =>
            match hexVal h1, hexVal h2, hexVal h3, hexVal h4 with
            | some v1, some v2, some v3, some v4 =>
              (parseStrBody fuel t3).map (fun r =>
                (Char.ofNat (((v1 * 16 + v2) * 16 + v3) * 16 + v4) :: r.1,
                 r.2))
            | _, _, _, _ => none
          | _ => none
        else
          match escapeChar e with
          | some ec =>
            (parseStrBody fuel t2).map (fun r => (ec :: r.1, r.2))
          | none => none
    else if c.toNat < 0x20 then none
    else (parseStrBody fuel t).map (fun r => (c :: r.1, r.2))

/-- A JSON numeric literal: integer part (no leading zeros), optional
fraction, optional exponent; the exact value is `m / 10^k`. -/
def parseNum (s : List Char) : Option (Json × List Char) :=
  let (neg, s1) :=
    match s with
    | c :: t => if c = '-' then (true, t) else (false, s)
    | [] => (false, s)
  let ds := s1.takeWhile isDigitCh
  let s2 := s1.dropWhile isDigitCh
  if ds.isEmpty then none
  else if 2 ≤ ds.length ∧ ds.head? = some '0' then none
  else
    let (fds, s3) :=
      match s2 with
      | c :: t =>
        if c = '.' then (t.takeWhile isDigitCh, t.dropWhile isDigitCh)
        else ([], s2)
      | [] => ([], s2)
    let fracPresent :=
      match s2 with
      | c :: _ => c = '.'
      | [] => false
    if fracPresent && fds.isEmpty then none
    else
      let (expPresent, eneg, eds, s4) :=
        match s3 with
        | c :: t =>
          if c = 'e' ∨ c = 'E' then
            match t with
            | c2 :: t2 =>
              if c2 = '-' then
                (true, true, t2.takeWhile isDigitCh,
                 t2.dropWhile isDigitCh)
              else if c2 = '+' then
                (true, false, t2.takeWhile isDigitCh,
                 t2.dropWhile isDigitCh)
              else (true, false, t.takeWhile isDigitCh,
                t.dropWhile isDigitCh)
            | [] => (true, false, [], t)
          else (false, false, [], s3)
        | [] => (false, false, [], s3)
      if expPresent && eds.isEmpty then none
      else
        let m0 : Int := Int.ofNat (digitsToNat (ds ++ fds))
        let m1 : Int := if neg then -m0 else m0
        let e : Nat := digitsToNat eds
        let res : Json :=
          if eneg then Json.numVal m1 (fds.length + e)
          else Json.numVal (m1 * (10 : Int) ^ e) fds.length
        some (res, s4)

mutual

/-- One JSON value, leading whitespace allowed. -/
def parseVal : Nat → List Char → Option (Json × List Char)
  | 0, _ => none
  | fuel + 1, s =>
    match skipJsonWs s with
    | [] => none
    | c :: t =>
      if c = '\x7b' then
        match skipJsonWs t with
        | c2 :: t2 =>
          if c2 = '\x7d' then some (Json.objVal [], t2)
          else parseMembers fuel (skipJsonWs t) >>= fun r =>
            some (Json.objVal r.1, r.2)
        | [] => none
      else if c = '[' then
        match skipJsonWs t with
        | c2 :: t2 =>
          if c2 = ']' then some (Json.arrVal [], t2)
          else parseElems fuel (skipJsonWs t) >>= fun r =>
            some (Json.arrVal r.1, r.2)
        | [] => none
      else if c = '"' then
        (parseStrBody (t.length + 1) t).map (fun r =>
          (Json.strVal (String.mk r.1), r.2))
      else if "null".data.isPrefixOf (c :: t) then
        some (Json.null, (c :: t).drop 4)
      else if "true".data.isPrefixOf (c :: t) then
        some (Json.boolVal true, (c :: t).drop 4)
      else if "false".data.isPrefixOf (c :: t) then
        some (Json.boolVal false, (c :: t).drop 5)
      else parseNum (c :: t)

/-- One or more `"key": value` members followed by `}`. -/
def parseMembers : Nat → List Char →
    Option (List (String × Json) × List Char)
  | 0, _ => none
  | fuel + 1, s =>
    match skipJsonWs s with
    | c :: t =>
      if c = '"' then
        parseStrBody (t.length + 1) t >>= fun kr =>
        match skipJsonWs kr.2 with
        | c2 :: t2 =>
          if c2 = ':' then
            parseVal fuel t2 >>= fun vr =>
            match skipJsonWs vr.2 with
            | c3 :: t3 =>
              if c3 = ',' then
                parseMembers fuel t3 >>= fun mr =>
                some ((String.mk kr.1, vr.1) :: mr.1, mr.2)
              else if c3 = '\x7d' then
                some ([(String.mk kr.1, vr.1)], t3)
              else none
            | [] => none
          else none
        | [] => none
      else none
    | [] => none

/-- One or more array elements followed by `]`. -/
def parseElems : Nat → List Char → Option (List Json × List Char)
  | 0, _ => none
  | fuel + 1, s =>
    parseVal fuel s >>= fun vr =>
    match skipJsonWs vr.2 with
    | c :: t =>
      if c = ',' then
        parseElems fuel t >>= fun er => some (vr.1 :: er.1, er.2)
      else if c = ']' then some ([vr.1], t)
      else none
    | [] => none

end

/-- `JSON.parse`: the whole string must be one JSON value with only
trailing whitespace. -/
def jsonParse (text : String) : Option Json :=
  match parseVal (text.data.length + 1) text.data with
  | some (v, rest) => if (skipJsonWs rest).isEmpty then some v else none
  | none => none

/-! ## Applying the language-model result (processDialogue, lines 209–308) -/

/-- Property access `obj[key]` on a parsed JSON value (duplicate keys:
the last occurrence wins, as in a JS object literal). -/
def jGet (j : Json) (key : String) : Option Json :=
  match j with
  | Json.objVal fields =>
    ((fields.filter (fun f => f.1 == key)).getLast?).map (fun f => f.2)
  | _ => none

def jStr : Option Json → Option String
  | some (Json.strVal s) => some s
  | _ => none

/-- A numeric JSON field, kept only when integer-valued (the code only
ever receives integer AED prices, areas and floors here). -/
def jInt : Option Json → Option Int
  | some (Json.numVal m k) =>
    if m % (10 : Int) ^ k = 0 then some (m / (10 : Int) ^ k) else none
  | _ => none

/-- `parsed.params_update || {}` read into a sparse parameter patch;
`null` fields are dropped, matching the endpoint's null/undefined guard on
assignment.  Non-string district values and non-numeric bound values
(which a compliant model never produces) are outside the model and
dropped. -/
def toPatch (o : Option Json) : SearchParams :=
  match o with
  | some j =>
    { district := jStr (jGet j "district"),
      price_min := jInt (jGet j "price_min"),
      price_max := jInt (jGet j "price_max"),
      area_min := jInt (jGet j "area_min"),
      area_max := jInt (jGet j "area_max"),
      floor_min := jInt (jGet j "floor_min"),
      floor_max := jInt (jGet j "floor_max") }
  | none => {}

/-- `Object.entries(patch).forEach(([k,v]) => { if (v !== null && v !==
undefined) params[k] = v })`: present patch fields overwrite, absent ones
keep the base value. -/
def mergeParams (base patch : SearchParams) : SearchParams :=
  { district := patch.district.orElse (fun _ => base.district),
    price_min := patch.price_min.orElse (fun _ => base.price_min),
    price_max := patch.price_max.orElse (fun _ => base.price_max),
    area_min := patch.area_min.orElse (fun _ => base.area_min),
    area_max := patch.area_max.orElse (fun _ => base.area_max),
    floor_min := patch.floor_min.orElse (fun _ => base.floor_min),
    floor_max := patch.floor_max.orElse (fun _ => base.floor_max) }

def actionField (j : Json) : Option String := jStr (jGet j "action")

/-- `parsed.action === s` (false whenever the field is absent or not a
string). -/
def actionIs (j : Json) (s : String) : Bool := actionField j == some s

/-- `parsed.action || 'none'`. -/
def normalizedAction (j : Json) : String :=
  match actionField j with
  | some s => if s = "" then "none" else s
  | none => "none"

def responseField (j : Json) : Option String := jStr (jGet j "response")

/-- JS `a || b` on an optional string. -/
def jsOrStr (o : Option String) (d : String) : String :=
  match o with
  | some s => if s = "" then d else s
  | none => d

/-- The `try` block after a successful `JSON.parse` (lines 213–283). -/
def handleParsed (fmt : Apartment → String) (j : Json)
    (ctx : DialogueContext) : DialogueResult :=
  let patch := toPatch (jGet j "params_update")
  if actionIs j "confirm_interest" then
    match jsLastShown ctx.shownApartments with
    | some id =>
      match getApartmentById id with
      | some apt =>
        { response := confirmInterestMsg, paramsUpdate := patch,
          action := "confirm_interest", apartment := some apt }
      | none =>
        { response := jsOrStr (responseField j) "",
          paramsUpdate := patch, action := "confirm_interest",
          apartment := none }
    | none =>
      let merged := mergeParams ctx.params patch
      match searchApartments merged ctx.shownApartments with
      | apt :: _ =>
        { response := confirmInterestMsg, paramsUpdate := patch,
          action := "confirm_interest", apartment := some apt }
      | [] =>
        { response := clarifyNoApartmentMsg, paramsUpdate := patch,
          action := "none", apartment := none }
  else if actionIs j "search" || actionIs j "next" then
    let merged := mergeParams ctx.params patch
    match searchApartments merged ctx.shownApartments with
    | apt :: _ =>
      { response := hereIsOptionAskMsg fmt apt, paramsUpdate := patch,
        action := normalizedAction j, apartment := some apt }
    | [] =>
      { response := noMoreOptionsMsg, paramsUpdate := patch,
        action := "none", apartment := none }
  else
    { response := jsOrStr (responseField j) "", paramsUpdate := patch,
      action := normalizedAction j, apartment := none }

def apologyResult : DialogueResult :=
  { response := apologyMsg, paramsUpdate := {}, action := "none",
    apartment := none }

/-- `responseText.match(/\{[\s\S]*\}/)`: greedy — from the first opening
brace to the last closing brace after it. -/
def extractBraces (s : List Char) : Option (List Char) :=
  match List.indexOf? '\x7b' s, List.indexOf? '\x7d' s.reverse with
  | some i, some ri =>
    let j := s.length - 1 - ri
    if i < j then some ((s.drop i).take (j - i + 1)) else none
  | _, _ => none

/-- The `catch` block (lines 284–307): try to re-parse the extracted
object-like substring; on success return its fields verbatim (with the
error-apology default response); otherwise the generic apology with action
`none` and an empty patch.  This recovery never throws. -/
def recoverFromText (text : String) : DialogueResult :=
  match extractBraces text.data with
  | some sub =>
    match jsonParse (String.mk sub) with
    | some j =>
      { response := jsOrStr (responseField j) recoverDefaultMsg,
        paramsUpdate := toPatch (jGet j "params_update"),
        action := normalizedAction j, apartment := none }
    | none => apologyResult
  | none => apologyResult

/-- The language-model path of `processDialogue` applied to the completion
text.  A top-level JSON `null` parses but makes the subsequent property
access throw inside the `try` block, which lands in the same `catch`
recovery. -/
def applyLLM (fmt : Apartment → String) (text : String)
    (ctx : DialogueContext) : DialogueResult :=
  match jsonParse text with
  | some Json.null => recoverFromText text
  | some j => handleParsed fmt j ctx
  | none => recoverFromText text

/-- `processDialogue`: the local cascade first; if no local rule resolves
the turn, the language-model path applied to the completion text `llmText`
(the external model's output, a parameter of the embedding). -/
def processDialogue (fmt : Apartment → String) (llmText : String)
    (userMessage : String) (ctx : DialogueContext) : DialogueResult :=
  match localResolve fmt userMessage ctx with
  | some r => r
  | none => applyLLM fmt llmText ctx

/-! ## Resolver precedence (C4) -/

theorem ruleCapability_action {m : List Char} {r : DialogueResult}
    (h : ruleCapability m = some r) : r.action = "none" := by
  unfold ruleCapability at h
  split at h
  · cases h
    rfl
  · cases h

theorem ruleBudgetChange_action {m : List Char} {r : DialogueResult}
    (h : ruleBudgetChange m = some r) : r.action = "none" := by
  unfold ruleBudgetChange at h
  split at h
  · cases h
    rfl
  · cases h

theorem ruleDistrictAlone_action {fmt : Apartment → String}
    {ctx : DialogueContext} {m : List Char} {r : DialogueResult}
    (h : ruleDistrictAlone fmt ctx m = some r) :
    r.action = "search" ∨ r.action = "none" := by
  unfold ruleDistrictAlone at h
  split at h
  · split at h
    · cases h
      exact Or.inl rfl
    · cases h
      exact Or.inr rfl
  · cases h

theorem ruleSearchTrigger_action {fmt : Apartment → String}
    {ctx : DialogueContext} {m : List Char} {r : DialogueResult}
    (h : ruleSearchTrigger fmt ctx m = some r) :
    r.action = "search" ∨ r.action = "none" := by
  unfold ruleSearchTrigger at h
  split at h
  · split at h
    · cases h
      exact Or.inl rfl
    · cases h
      exact Or.inr rfl
  · cases h

theorem ruleConfirm_fires {ctx : DialogueContext} {m : List Char}
    {id : String} {apt : Apartment}
    (hconf : confirmPat m = true)
    (hlast : jsLastShown ctx.shownApartments = some id)
    (hfound : getApartmentById id = some apt) :
    ruleConfirm ctx m =
      some { response := confirmInterestMsg, paramsUpdate := {},
             action := "confirm_interest", apartment := some apt } := by
  unfold ruleConfirm
  rw [hlast]
  simp [hconf, hfound]


/-- C4 (amended): for an utterance matching both a confirmation pattern
and a "next" pattern, with a listing already shown (its id resolvable in
the catalog), `processDialogue` never resolves the turn to action `next`;
and provided no earlier resolver rule fires (capability question,
budget-change request, district-alone auto-search gate, generic
search-trigger gate), it resolves to `confirm_interest` against the most
recently shown listing. -/
theorem resolver_confirm_precedence (fmt : Apartment → String)
    (llmText userMessage : String) (ctx : DialogueContext)
    (id : String) (apt : Apartment)
    (hconf : confirmPat (jsTrim (jsToLower userMessage.data)) = true)
    (hnext : nextPat (jsTrim (jsToLower userMessage.data)) = true)
    (hlast : jsLastShown ctx.shownApartments = some id)
    (hfound : getApartmentById id = some apt) :
    (processDialogue fmt llmText userMessage ctx).action ≠ "next" ∧
    (capabilityPat (jsTrim (jsToLower userMessage.data)) = false →
     budgetChangePat (jsTrim (jsToLower userMessage.data)) = false →
     ¬ (hasAnyParam ctx.params = true ∧
        (detectDistrict (jsTrim (jsToLower userMessage.data))).isSome =
          true ∧
        splitWsCount (jsTrim (jsToLower userMessage.data)) ≤ 4) →
     ¬ (hasAnyParam ctx.params = true ∧
        searchTriggerPat (jsTrim (jsToLower userMessage.data)) = true) →
     (processDialogue fmt llmText userMessage ctx).action =
        "confirm_interest" ∧
     (processDialogue fmt llmText userMessage ctx).apartment = some apt) := by
  have hcf := ruleConfirm_fires (m := jsTrim (jsToLower userMessage.data))
    hconf hlast hfound
  constructor
  · unfold processDialogue localResolve localResolveCore
    cases h1 : ruleCapability (jsTrim (jsToLower userMessage.data)) with
    | some r =>
      simp only [h1, ruleCapability_action h1]
      decide
    | none =>
    cases h2 : ruleBudgetChange (jsTrim (jsToLower userMessage.data)) with
    | some r =>
      simp only [h1, h2, ruleBudgetChange_action h2]
      decide
    | none =>
    cases h3 : ruleDistrictAlone fmt ctx
        (jsTrim (jsToLower userMessage.data)) with
    | some r =>
      simp only [h1, h2, h3]
      rcases ruleDistrictAlone_action h3 with ha | ha <;> rw [ha] <;> decide
    | none =>
    cases h4 : ruleSearchTrigger fmt ctx
        (jsTrim (jsToLower userMessage.data)) with
    | some r =>
      simp only [h1, h2, h3, h4]
      rcases ruleSearchTrigger_action h4 with ha | ha <;> rw [ha] <;> decide
    | none =>
      simp only [h1, h2, h3, h4, hcf]
      decide
  · intro hcap hbud hg3 hg4
    have h1 : ruleCapability (jsTrim (jsToLower userMessage.data)) =
        none := by
      unfold ruleCapability
      rw [hcap]
      simp
    have h2 : ruleBudgetChange (jsTrim (jsToLower userMessage.data)) =
        none := by
      unfold ruleBudgetChange
      rw [hbud]
      simp
    have h3 : ruleDistrictAlone fmt ctx
        (jsTrim (jsToLower userMessage.data)) = none := by
      unfold ruleDistrictAlone
      rw [if_neg hg3]
    have h4 : ruleSearchTrigger fmt ctx
        (jsTrim (jsToLower userMessage.data)) = none := by
      unfold ruleSearchTrigger
      rw [if_neg hg4]
    unfold processDialogue localResolve localResolveCore
    simp [h1, h2, h3, h4, hcf]

theorem resolver_confirm_precedence_witness :
    confirmPat (jsTrim (jsToLower "не подходит".data)) = true ∧
    nextPat (jsTrim (jsToLower "не подходит".data)) = true ∧
    (processDialogue (fun _ => "") "" "не подходит"
        (DialogueContext.mk "s" {} ["A1"] none [] 0)).action =
      "confirm_interest" ∧
    (processDialogue (fun _ => "") "" "не подходит"
        (DialogueContext.mk "s" {} ["A1"] none [] 0)).action ≠ "next" := by
  have h := resolver_confirm_precedence (fun _ => "") "" "не подходит"
    (DialogueContext.mk "s" {} ["A1"] none [] 0) "A1"
    (Apartment.mk "A1" "Dubai Marina" 65 5 1800000 "" [])
    (by decide) (by decide) (by decide) (by decide)
  exact ⟨by decide, by decide,
    (h.2 (by decide) (by decide) (by decide) (by decide)).1, h.1⟩

/-- C4 counterexample: the transcript "нет не подходит изменим цену"
matches both the confirmation pattern (via its substring "подход") and the
"next" pattern (prefix "нет" then whitespace), a listing has been shown,
yet the resolver answers with the earlier budget-change rule: the resolved
action is `none`, not `confirm_interest`. -/
theorem resolver_confirm_precedence_cex :
    confirmPat (jsTrim (jsToLower "нет не подходит изменим цену".data)) =
      true ∧
    nextPat (jsTrim (jsToLower "нет не подходит изменим цену".data)) =
      true ∧
    (jsLastShown ["A1"]).isSome = true ∧
    (getApartmentById "A1").isSome = true ∧
    (processDialogue (fun _ => "") "" "нет не подходит изменим цену"
        (DialogueContext.mk "s" {} ["A1"] none [] 0)).action = "none" ∧
    (processDialogue (fun _ => "") "" "нет не подходит изменим цену"
        (DialogueContext.mk "s" {} ["A1"] none [] 0)).action ≠
      "confirm_interest" :=
  ⟨by decide, by decide, by decide, by decide, by decide, by decide⟩

/-! ## Budget-change rule (C9) -/

/-- C9 (amended): an utterance recognised as an explicit bound-change
request is answered by the local budget-change rule with a canned question
asking for the new amount, an EMPTY parameter update and action `none`
(never `search`): extraction of the new value is deferred to the
language-model path of a later turn. -/
theorem budget_change_rule_no_update (fmt : Apartment → String)
    (llmText userMessage : String) (ctx : DialogueContext)
    (hcap : capabilityPat (jsTrim (jsToLower userMessage.data)) = false)
    (hbud : budgetChangePat (jsTrim (jsToLower userMessage.data)) = true) :
    processDialogue fmt llmText userMessage ctx =
      { response := budgetChangeMsg, paramsUpdate := {},
        action := "none", apartment := none } := by
  have h1 : ruleCapability (jsTrim (jsToLower userMessage.data)) = none := by
    unfold ruleCapability
    rw [hcap]
    simp
  have h2 : ruleBudgetChange (jsTrim (jsToLower userMessage.data)) =
      some { response := budgetChangeMsg, paramsUpdate := {},
             action := "none", apartment := none } := by
    unfold ruleBudgetChange
    rw [hbud]
    simp
  unfold processDialogue localResolve localResolveCore
  simp [h1, h2]

theorem budget_change_rule_no_update_witness :
    capabilityPat
      (jsTrim (jsToLower "изменим бюджет до 3 миллионов".data)) = false ∧
    budgetChangePat
      (jsTrim (jsToLower "изменим бюджет до 3 миллионов".data)) = true ∧
    processDialogue (fun _ => "") "" "изменим бюджет до 3 миллионов"
      (DialogueContext.mk "s"
        (SearchParams.mk none none (some 2000000) none none none none)
        [] none [] 0) =
      { response := budgetChangeMsg, paramsUpdate := {},
        action := "none", apartment := none } :=
  ⟨by decide, by decide,
   budget_change_rule_no_update (fun _ => "") ""
     "изменим бюджет до 3 миллионов"
     (DialogueContext.mk "s"
       (SearchParams.mk none none (some 2000000) none none none none)
       [] none [] 0) (by decide) (by decide)⟩

/-- C9 counterexample: "изменим бюджет до 3 миллионов" is an explicit
budget-change instruction carrying the new amount, the context has a
parameter set, yet the resolver applies NO parameter update and resolves
action `none` (a question asking for the amount), not `search`. -/
theorem budget_change_rule_cex :
    budgetChangePat
      (jsTrim (jsToLower "изменим бюджет до 3 миллионов".data)) = true ∧
    hasAnyParam
      (SearchParams.mk none none (some 2000000) none none none none) =
      true ∧
    (processDialogue (fun _ => "") "" "изменим бюджет до 3 миллионов"
        (DialogueContext.mk "s"
          (SearchParams.mk none none (some 2000000) none none none none)
          [] none [] 0)).action = "none" ∧
    (processDialogue (fun _ => "") "" "изменим бюджет до 3 миллионов"
        (DialogueContext.mk "s"
          (SearchParams.mk none none (some 2000000) none none none none)
          [] none [] 0)).action ≠ "search" ∧
    (processDialogue (fun _ => "") "" "изменим бюджет до 3 миллионов"
        (DialogueContext.mk "s"
          (SearchParams.mk none none (some 2000000) none none none none)
          [] none [] 0)).paramsUpdate = {} :=
  ⟨by decide, by decide, by decide, by decide, by decide⟩

/-! ## Confirm-interest without a shown listing (C5) -/

/-- C5: when the language model resolves `confirm_interest` but no listing
has been shown this session and the search over the merged parameters
finds nothing, the action is downgraded to `none`, no listing is attached,
and the clarification request is returned. -/
theorem confirm_no_fabrication (fmt : Apartment → String)
    (llmText userMessage : String) (ctx : DialogueContext) (j : Json)
    (hlocal : localResolve fmt userMessage ctx = none)
    (hshown : ctx.shownApartments = [])
    (hparse : jsonParse llmText = some j)
    (hnotnull : j ≠ Json.null)
    (haction : actionIs j "confirm_interest" = true)
    (hempty : searchApartments
      (mergeParams ctx.params (toPatch (jGet j "params_update")))
      ctx.shownApartments = []) :
    processDialogue fmt llmText userMessage ctx =
      { response := clarifyNoApartmentMsg,
        paramsUpdate := toPatch (jGet j "params_update"),
        action := "none", apartment := none } := by
  rw [hshown] at hempty
  unfold processDialogue
  rw [hlocal]
  unfold applyLLM
  rw [hparse]
  have hmatch : (match some j with
      | some Json.null => recoverFromText llmText
      | some j => handleParsed fmt j ctx
      | none => recoverFromText llmText) = handleParsed fmt j ctx := by
    cases j with
    | null => exact absurd rfl hnotnull
    | boolVal b => rfl
    | numVal m k => rfl
    | strVal s => rfl
    | arrVal xs => rfl
    | objVal fields => rfl
  rw [hmatch]
  unfold handleParsed
  rw [if_pos haction, hshown]
  simp only [jsLastShown]
  rw [hempty]
  rfl

theorem confirm_no_fabrication_witness :
    processDialogue (fun _ => "")
      "\x7b\"response\":\"Беру!\",\"params_update\":\x7b\"district\":\"Атлантида\"\x7d,\"action\":\"confirm_interest\"\x7d"
      "мне нужна квартира"
      (DialogueContext.mk "s" {} [] none [] 0) =
      { response := clarifyNoApartmentMsg,
        paramsUpdate :=
          SearchParams.mk (some "Атлантида") none none none none none none,
        action := "none", apartment := none } :=
  confirm_no_fabrication (fun _ => "")
    "\x7b\"response\":\"Беру!\",\"params_update\":\x7b\"district\":\"Атлантида\"\x7d,\"action\":\"confirm_interest\"\x7d"
    "мне нужна квартира" (DialogueContext.mk "s" {} [] none [] 0)
    (Json.objVal
      [("response", Json.strVal "Беру!"),
       ("params_update",
         Json.objVal [("district", Json.strVal "Атлантида")]),
       ("action", Json.strVal "confirm_interest")])
    rfl rfl rfl (fun h => Json.noConfusion h) rfl rfl

/-! ## Parse-failure fallback (C6) -/

/-- C6: the parse-and-apply step is a total function of the completion
text (the model of the `try`/`catch` structure never throws); whenever
direct JSON parsing fails (or yields the top-level `null` whose property
access lands in the same `catch`), and re-parsing the extracted
object-like substring also fails (or no such substring exists), the result
is the generic apology with action `none` and an empty parameter patch. -/
theorem llm_parse_fallback (fmt : Apartment → String) (text : String)
    (ctx : DialogueContext)
    (hfail : jsonParse text = none ∨ jsonParse text = some Json.null)
    (hrec : ∀ sub : List Char, extractBraces text.data = some sub →
      jsonParse (String.mk sub) = none) :
    applyLLM fmt text ctx = apologyResult ∧
    apologyResult.response = apologyMsg ∧
    apologyResult.action = "none" ∧
    apologyResult.paramsUpdate = {} := by
  refine ⟨?_, rfl, rfl, rfl⟩
  have hrecover : recoverFromText text = apologyResult := by
    unfold recoverFromText
    cases hx : extractBraces text.data with
    | some sub => simp only [hrec sub hx]
    | none => rfl
  unfold applyLLM
  rcases hfail with h | h <;> rw [h] <;> exact hrecover

theorem llm_parse_fallback_witness :
    applyLLM (fun _ => "") "я не json, просто текст без фигурных скобок"
      (DialogueContext.mk "s" {} [] none [] 0) = apologyResult ∧
    apologyResult.response = apologyMsg :=
  ⟨(llm_parse_fallback (fun _ => "")
      "я не json, просто текст без фигурных скобок"
      (DialogueContext.mk "s" {} [] none [] 0)
      (Or.inl rfl) (fun sub h => Option.noConfusion h)).1,
   rfl⟩

/-! ## Streaming TTS phrase segmentation (C7)

One iteration of the segmentation loop of `/api/chat/voice-stream`
(`MAX_BUFFER_LEN = 40`, `phraseRegex = /([.!?,])\s+/`). -/

def punctCh (c : Char) : Bool :=
  c = '.' || c = '!' || c = '?' || c = ','

/-- The first match of `/([.!?,])\s+/`: start index and match length
(punctuation character plus the maximal following whitespace run). -/
def findPhraseMatch : List Char → Option (Nat × Nat)
  | [] => none
  | c :: t =>
    if punctCh c &&
        (match t with | c2 :: _ => jsWsChar c2 | [] => false)
    then some (0, 1 + (t.takeWhile jsWsChar).length)
    else (findPhraseMatch t).map (fun p => (p.1 + 1, p.2))

/-- `ttsBuffer.lastIndexOf(' ', bound)`: the greatest index `i ≤ bound`
(clamped to the last index) holding a space, if any; JS returns `-1`
otherwise, modelled as `none`. -/
def lastSpaceLe (s : List Char) (bound : Nat) : Option Nat :=
  ((List.range (min (bound + 1) s.length)).filter
    (fun i => s.get? i = some ' ')).getLast?

/-- One iteration of the segmentation loop: the first emitted phrase and
the remaining buffer.  On a phrase-boundary match, cut after the match; if
the buffer has at least 40 characters, cut at the last space at or before
index 40 provided it lies strictly beyond index 20 (`lastSpace >
MAX_BUFFER_LEN / 2`), otherwise hard-cut at 40; else the whole buffer is
the final phrase. -/
def firstPhraseCut (s : List Char) : List Char × List Char :=
  match findPhraseMatch s with
  | some (i, len) => (s.take (i + len), s.drop (i + len))
  | none =>
    if 40 ≤ s.length then
      match lastSpaceLe s 40 with
      | some ls =>
        if 20 < ls then (s.take ls, jsTrim (s.drop ls))
        else (s.take 40, jsTrim (s.drop 40))
      | none => (s.take 40, jsTrim (s.drop 40))
    else (s, [])

theorem findPhraseMatch_of_no_punct {s : List Char}
    (h : ∀ c ∈ s, punctCh c = false) : findPhraseMatch s = none := by
  induction s with
  | nil => rfl
  | cons c t ih =>
    have hc := h c (List.mem_cons_self c t)
    unfold findPhraseMatch
    rw [hc]
    simp [ih (fun x hx => h x (List.mem_cons_of_mem c hx))]

/-- C7 (amended): for a buffer with no phrase punctuation and more than 40
characters, the cut point is the last space at or before index 40 when
that space lies strictly beyond index 20; otherwise the phrase is
hard-cut at index 40 — even when a space exists at or before index 20. -/
theorem tts_segmentation_cut (s : List Char)
    (hnp : ∀ c ∈ s, punctCh c = false) (hlen : 40 < s.length) :
    (∀ ls : Nat, lastSpaceLe s 40 = some ls → 20 < ls →
      (firstPhraseCut s).1 = s.take ls) ∧
    (∀ ls : Nat, lastSpaceLe s 40 = some ls → ls ≤ 20 →
      (firstPhraseCut s).1 = s.take 40) ∧
    (lastSpaceLe s 40 = none → (firstPhraseCut s).1 = s.take 40) := by
  have hfm := findPhraseMatch_of_no_punct hnp
  have h40 : 40 ≤ s.length := le_of_lt hlen
  refine ⟨?_, ?_, ?_⟩
  · intro ls hls h20
    simp [firstPhraseCut, hfm, h40, hls, h20]
  · intro ls hls h20
    simp [firstPhraseCut, hfm, h40, hls, show ¬ (20 < ls) by omega]
  · intro hnone
    simp [firstPhraseCut, hfm, h40, hnone]

theorem tts_segmentation_cut_witness :
    (∀ c ∈ ("приветик хороший день сегодня на улице и тепло опять".data),
      punctCh c = false) ∧
    lastSpaceLe
      "приветик хороший день сегодня на улице и тепло опять".data 40 =
      some 40 ∧
    (firstPhraseCut
      "приветик хороший день сегодня на улице и тепло опять".data).1 =
      "приветик хороший день сегодня на улице и тепло опять".data.take
        40 :=
  ⟨by decide, by decide,
   (tts_segmentation_cut
      "приветик хороший день сегодня на улице и тепло опять".data
      (by decide) (by decide)).1 40 (by decide) (by decide)⟩

/-- C7 counterexample: a 48-character buffer with no punctuation whose
only space sits at index 2 — whitespace does exist at or before the
budget, yet the code hard-cuts mid-word at index 40 instead of cutting at
that space. -/
theorem tts_segmentation_cex :
    (∀ c ∈ ("яя ввввввввввввввввввввввввввввввввввввввввввввв".data),
      punctCh c = false) ∧
    ("яя ввввввввввввввввввввввввввввввввввввввввввввв".data).length =
      48 ∧
    lastSpaceLe
      "яя ввввввввввввввввввввввввввввввввввввввввввввв".data 40 =
      some 2 ∧
    (firstPhraseCut
      "яя ввввввввввввввввввввввввввввввввввввввввввввв".data).1 ≠
      "яя ввввввввввввввввввввввввввввввввввввввввввввв".data.take 2 ∧
    (firstPhraseCut
      "яя ввввввввввввввввввввввввввввввввввввввввввввв".data).1 =
      "яя ввввввввввввввввввввввввввввввввввввввввввввв".data.take 40 :=
  ⟨by decide, by decide, by decide, by decide, by decide⟩

/-! ## Session context updates and the shown-history invariant (C8) -/

/-- The guarded append used at every site that marks a listing shown:
`if (!context.shownApartments.includes(id)) context.shownApartments.push(id)`. -/
def appendShownJs (shown : List String) (id : String) : List String :=
  if shown.contains id then shown else shown ++ [id]

/-- The context created by `POST /api/session/start`. -/
def initialContext (sessionId greeting : String) : DialogueContext :=
  { sessionId := sessionId, params := {}, shownApartments := [],
    selectedApartment := none,
    messageHistory := [ChatMessage.mk "assistant" greeting],
    startTime := 0 }

/-- Lines 88–132 of the voice endpoint (also the stream fallback path,
lines 308–344): push the user turn, merge the non-null patch fields,
append the result apartment to the shown history only for `search`/`next`
actions and only when not already present, push the assistant turn, and
select a listing on `confirm_interest`. -/
def applyResultToContext (r : DialogueResult) (userText : String)
    (ctx : DialogueContext) : DialogueContext :=
  let ctx1 := { ctx with
    messageHistory := ctx.messageHistory ++ [ChatMessage.mk "user" userText],
    params := mergeParams ctx.params r.paramsUpdate }
  let ctx2 := match r.apartment with
    | some apt =>
      if r.action = "search" ∨ r.action = "next" then
        { ctx1 with
          shownApartments := appendShownJs ctx1.shownApartments apt.id }
      else ctx1
    | none => ctx1
  let ctx3 := { ctx2 with messageHistory :=
    ctx2.messageHistory ++ [ChatMessage.mk "assistant" r.response] }
  if r.action = "confirm_interest" then
    match r.apartment with
    | some apt => { ctx3 with selectedApartment := some apt.id }
    | none =>
      match ctx3.shownApartments.getLast? with
      | some lastId =>
        match getApartmentById lastId with
        | some apt => { ctx3 with selectedApartment := some apt.id }
        | none => ctx3
      | none => ctx3
  else ctx3

/-- Lines 230–274: the stream endpoint's local fast search path (shows the
first hit of a search over the current params, excluding shown ids). -/
def streamFastSearchUpdate (fmt : Apartment → String) (userText : String)
    (ctx : DialogueContext) : DialogueContext :=
  let ctx1 := { ctx with messageHistory :=
    ctx.messageHistory ++ [ChatMessage.mk "user" userText] }
  match searchApartments ctx1.params ctx1.shownApartments with
  | apt :: _ =>
    { ctx1 with
      shownApartments := appendShownJs ctx1.shownApartments apt.id,
      messageHistory := ctx1.messageHistory ++
        [ChatMessage.mk "assistant" (hereIsOptionMsg fmt apt)] }
  | [] =>
    { ctx1 with messageHistory := ctx1.messageHistory ++
        [ChatMessage.mk "assistant" noOptionsMsg] }

def streamConfirmMsg : String :=
  "Отлично! Я создаю для вас персональную страницу с подробной информацией. Ссылка появится на экране."

def streamClarifyMsg : String :=
  "Я пока не нашёл подходящую квартиру. Уточните параметры."

/-- Lines 276–302: the stream endpoint's local confirm fast path (never
touches the shown history, selects the last shown listing). -/
def streamFastConfirmUpdate (userText : String) (ctx : DialogueContext) :
    DialogueContext :=
  let ctx1 := { ctx with messageHistory :=
    ctx.messageHistory ++ [ChatMessage.mk "user" userText] }
  match jsLastShown ctx1.shownApartments with
  | some lastId =>
    match getApartmentById lastId with
    | some apt =>
      { ctx1 with
        selectedApartment := some apt.id,
        messageHistory := ctx1.messageHistory ++
          [ChatMessage.mk "assistant" streamConfirmMsg] }
    | none => ctx1
  | none => ctx1

/-- Lines 347–469: the stream endpoint's parsed-JSON application: merge
the patch, then `confirm_interest` selects (without appending), while
`search`/`next` append the first hit of the post-merge search to the shown
history. -/
def streamParsedUpdate (fmt : Apartment → String) (j : Json)
    (userText : String) (ctx : DialogueContext) : DialogueContext :=
  let ctx1 := { ctx with
    messageHistory := ctx.messageHistory ++ [ChatMessage.mk "user" userText],
    params := mergeParams ctx.params (toPatch (jGet j "params_update")) }
  if actionIs j "confirm_interest" then
    match jsLastShown ctx1.shownApartments with
    | some lastId =>
      match getApartmentById lastId with
      | some apt =>
        { ctx1 with
          selectedApartment := some apt.id,
          messageHistory := ctx1.messageHistory ++
            [ChatMessage.mk "assistant" streamConfirmMsg] }
      | none =>
        { ctx1 with messageHistory := ctx1.messageHistory ++
            [ChatMessage.mk "assistant" streamConfirmMsg] }
    | none =>
      match searchApartments ctx1.params ctx1.shownApartments with
      | apt :: _ =>
        { ctx1 with
          selectedApartment := some apt.id,
          messageHistory := ctx1.messageHistory ++
            [ChatMessage.mk "assistant" streamConfirmMsg] }
      | [] =>
        { ctx1 with messageHistory := ctx1.messageHistory ++
            [ChatMessage.mk "assistant" streamClarifyMsg] }
  else if actionIs j "search" || actionIs j "next" then
    match searchApartments ctx1.params ctx1.shownApartments with
    | apt :: _ =>
      { ctx1 with
        shownApartments := appendShownJs ctx1.shownApartments apt.id,
        messageHistory := ctx1.messageHistory ++
          [ChatMessage.mk "assistant" (hereIsOptionMsg fmt apt)] }
    | [] =>
      { ctx1 with messageHistory := ctx1.messageHistory ++
          [ChatMessage.mk "assistant" noMoreOptionsMsg] }
  else
    { ctx1 with messageHistory := ctx1.messageHistory ++
        [ChatMessage.mk "assistant" (jsOrStr (responseField j) "")] }

/-- The reachable Dialogue Contexts: a fresh session context followed by
any sequence of the context-mutating turn operations of the two voice
endpoints (with arbitrary dialogue results, transcripts and model
outputs). -/
inductive ContextReachable (fmt : Apartment → String) :
    DialogueContext → Prop
  | start (sessionId greeting : String) :
      ContextReachable fmt (initialContext sessionId greeting)
  | applyResult {ctx : DialogueContext} (r : DialogueResult)
      (userText : String) (h : ContextReachable fmt ctx) :
      ContextReachable fmt (applyResultToContext r userText ctx)
  | fastSearch {ctx : DialogueContext} (userText : String)
      (h : ContextReachable fmt ctx) :
      ContextReachable fmt (streamFastSearchUpdate fmt userText ctx)
  | fastConfirm {ctx : DialogueContext} (userText : String)
      (h : ContextReachable fmt ctx) :
      ContextReachable fmt (streamFastConfirmUpdate userText ctx)
  | parsed {ctx : DialogueContext} (j : Json) (userText : String)
      (h : ContextReachable fmt ctx) :
      ContextReachable fmt (streamParsedUpdate fmt j userText ctx)

theorem appendShownJs_nodup {shown : List String} {id : String}
    (h : shown.Nodup) : (appendShownJs shown id).Nodup := by
  unfold appendShownJs
  split
  · exact h
  · rename_i hc
    simp only [List.contains] at hc
    rw [List.nodup_append]
    refine ⟨h, List.nodup_singleton id, ?_⟩
    intro a ha hb
    rw [List.mem_singleton] at hb
    subst hb
    exact (Bool.eq_false_iff.mp (Bool.not_eq_true _ ▸ hc))
      (List.elem_eq_true_of_mem ha)

theorem applyResult_shown (r : DialogueResult) (u : String)
    (ctx : DialogueContext) :
    (applyResultToContext r u ctx).shownApartments =
      ctx.shownApartments ∨
    ∃ id, (applyResultToContext r u ctx).shownApartments =
      appendShownJs ctx.shownApartments id := by
  unfold applyResultToContext
  cases hap : r.apartment with
  | none =>
    left
    simp only [hap]
    split <;> (try split) <;> (try split) <;> rfl
  | some apt =>
    by_cases hact : r.action = "search" ∨ r.action = "next"
    · right
      refine ⟨apt.id, ?_⟩
      simp only [hap, if_pos hact]
      split <;> (try split) <;> (try split) <;> rfl
    · left
      simp only [hap, if_neg hact]
      split <;> (try split) <;> (try split) <;> rfl

theorem fastSearch_shown (fmt : Apartment → String) (u : String)
    (ctx : DialogueContext) :
    (streamFastSearchUpdate fmt u ctx).shownApartments =
      ctx.shownApartments ∨
    ∃ id, (streamFastSearchUpdate fmt u ctx).shownApartments =
      appendShownJs ctx.shownApartments id := by
  unfold streamFastSearchUpdate
  simp only []
  split
  · rename_i apt _ _
    right
    exact ⟨apt.id, rfl⟩
  · left
    rfl

theorem fastConfirm_shown (u : String) (ctx : DialogueContext) :
    (streamFastConfirmUpdate u ctx).shownApartments =
      ctx.shownApartments := by
  unfold streamFastConfirmUpdate
  simp only []
  split <;> (try split) <;> rfl

theorem parsed_shown (fmt : Apartment → String) (j : Json) (u : String)
    (ctx : DialogueContext) :
    (streamParsedUpdate fmt j u ctx).shownApartments =
      ctx.shownApartments ∨
    ∃ id, (streamParsedUpdate fmt j u ctx).shownApartments =
      appendShownJs ctx.shownApartments id := by
  unfold streamParsedUpdate
  simp only []
  split
  · left
    split <;> (try split) <;> rfl
  · split
    · split
      · rename_i apt _ _
        right
        exact ⟨apt.id, rfl⟩
      · left
        rfl
    · left
      rfl

/-- C8: in every reachable Dialogue Context the shown-listing history
contains each listing id at most once: the fresh-session history is empty
and every context-mutating operation of both voice endpoints (search and
next resolutions included, across repeated `next` calls) appends only
through the membership-guarded push. -/
theorem shown_history_nodup (fmt : Apartment → String)
    (ctx : DialogueContext) (h : ContextReachable fmt ctx) :
    ctx.shownApartments.Nodup := by
  induction h with
  | start sid g => exact List.nodup_nil
  | applyResult r u _ ih =>
    rcases applyResult_shown r u _ with he | ⟨id, he⟩ <;> rw [he]
    · exact ih
    · exact appendShownJs_nodup ih
  | fastSearch u _ ih =>
    rcases fastSearch_shown fmt u _ with he | ⟨id, he⟩ <;> rw [he]
    · exact ih
    · exact appendShownJs_nodup ih
  | fastConfirm u _ ih =>
    rw [fastConfirm_shown u _]
    exact ih
  | parsed j u _ ih =>
    rcases parsed_shown fmt j u _ with he | ⟨id, he⟩ <;> rw [he]
    · exact ih
    · exact appendShownJs_nodup ih

theorem shown_history_nodup_witness :
    (streamFastSearchUpdate (fun _ => "") "давай"
      (applyResultToContext
        (DialogueResult.mk "ок"
          (SearchParams.mk none none (some 2000000) none none none none)
          "search" (some (Apartment.mk "A1" "Dubai Marina" 65 5 1800000
            "" [])))
        "до двух миллионов"
        (initialContext "s" "здравствуйте"))).shownApartments.Nodup :=
  shown_history_nodup (fun _ => "") _
    (ContextReachable.fastSearch "давай"
      (ContextReachable.applyResult _ "до двух миллионов"
        (ContextReachable.start "s" "здравствуйте")))
